import Mathlib

/-!
Verification of the daved proof-of-work submission orchestrator.

This file shallowly embeds the PoW search, batch orchestration, CLI
dispatch and HTTP gateway logic of the daved repository, and proves (or
refutes) the spec claims about them. Machine integers are modelled as
`Nat`/`Int`, byte strings as `List Nat`, Go strings as `List Char`.
External effects (clock, crypto, storage engine) are passed in as
explicit function parameters.
-/

namespace Daved

/-! ## Work Function (spec-modelled)

Modelled from the spec: the Work Function itself lives in the external
godave library (`pow.DoWork` / `godave.Work`), not under the repository
sources; spec section 4.1 defines its contract: deterministically test
candidate salts and return the first `(work, salt)` pair whose digest
has at least `difficulty` leading zero bits, where `work` equals the
deterministic digest of `(input, timestamp, salt)`. The digest function
is an explicit parameter; the unbounded search loop is modelled with
explicit fuel. -/

/-- Number of leading zero bits in a single byte (value `0 ≤ b ≤ 255`). -/
def leadingZeroBitsByte (b : Nat) : Nat :=
  if 128 ≤ b then 0 else if 64 ≤ b then 1 else if 32 ≤ b then 2
  else if 16 ≤ b then 3 else if 8 ≤ b then 4 else if 4 ≤ b then 5
  else if 2 ≤ b then 6 else if 1 ≤ b then 7 else 8

/-- Number of leading zero bits of a byte string, most significant byte first. -/
def leadingZeroBits : List Nat → Nat
  | [] => 0
  | b :: rest => if b = 0 then 8 + leadingZeroBits rest else leadingZeroBitsByte b

/-- Modelled from the spec: the difficulty predicate, `d` required leading zero bits. -/
def checkWork (d : Nat) (work : List Nat) : Bool :=
  decide (d ≤ leadingZeroBits work)

/-- Modelled from the spec: candidate salts are tested in order starting
from `s`; `fuel` bounds the number of candidates tried (the real search
is unbounded). `digest` is the deterministic digest, already applied to
the input content and timestamp. -/
def searchFrom (digest : Nat → List Nat) (d : Nat) : Nat → Nat → Option (List Nat × Nat)
  | 0, _ => none
  | fuel + 1, s =>
    if checkWork d (digest s) then some (digest s, s)
    else searchFrom digest d fuel (s + 1)

/-- Modelled from the spec: `search(input, t, difficulty)` of spec section 4.1.
`digest input t salt` is the deterministic digest of the triple. -/
def search (digest : List Nat → Int → Nat → List Nat) (input : List Nat) (t : Int)
    (d : Nat) (fuel : Nat) : Option (List Nat × Nat) :=
  searchFrom (digest input t) d fuel 0

/-! ## Decimal rendering of iteration indices

Embeds Go's `fmt.Sprintf("%s_%d", key, i)` used to vary the record key
across batch iterations. `decRepr` renders a natural number in decimal,
most significant digit first, as `%d` does. Structural fuel recursion
keeps it kernel-reducible. -/

/-- The decimal digit character for `n < 10`, as `%d` renders it. -/
def digitChar (n : Nat) : Char := Char.ofNat (48 + n)

/-- Decimal rendering with explicit fuel; correct whenever `n < fuel`. -/
def decReprAux : Nat → Nat → List Char
  | 0, _ => []
  | fuel + 1, n =>
    if n < 10 then [digitChar n]
    else decReprAux fuel (n / 10) ++ [digitChar (n % 10)]

/-- Decimal rendering of `n`, as Go's `%d` verb renders it. -/
def decRepr (n : Nat) : List Char := decReprAux (n + 1) n

/-- Value of a digit string, inverse of `decRepr`; used to prove injectivity. -/
def decVal (l : List Char) : Nat :=
  l.foldl (fun a c => 10 * a + (c.toNat - 48)) 0

/-! ## Data model

`Dat` embeds `types.Dat` of the daved CLI revision (src/unnamed/part_000,
part_002): key, value, creation time (Unix milliseconds), salt, work,
public key, signature. -/

structure Dat where
  key : List Char
  val : List Nat
  time : Int
  work : List Nat
  salt : List Nat
  sig : List Nat
  pubKey : List Nat
deriving DecidableEq, Repr

/-! ## Batch orchestrator: `put` of src/unnamed/part_000 (lines 207-228)

The Go loop is, per iteration `i`:
```
if i > 0 { keyInc = fmt.Sprintf("%s_%d", key, i) }
dat := &types.Dat{Key: keyInc, Val: val, Time: time.Now().Add(-100 * time.Millisecond)}
dat.Work, dat.Salt = pow.DoWork(dat.Key, dat.Val, dat.Time, opt.Difficulty)
dat.Sig = types.Signature(ed25519.Sign(privKey, dat.Work[:]))
dat.PubKey = privKey.Public()
err := d.Put(*dat)
```
`solve` models `pow.DoWork` (external godave), `sign` models
`ed25519.Sign`, and `now i` is the value of `time.Now()` (in Unix
milliseconds) at iteration `i`. The embedding returns the list of
records submitted, in submission order. -/

def part000Put (solve : List Char → List Nat → Int → Nat → List Nat × List Nat)
    (sign : List Nat → List Nat → List Nat) (priv pub : List Nat)
    (key : List Char) (val : List Nat) (now : Nat → Int) (difficulty : Nat)
    (ntest : Nat) : List Dat :=
  (List.range ntest).map fun i =>
    let keyInc := if i = 0 then key else key ++ '_' :: decRepr i
    let t := now i - 100
    let ws := solve keyInc val t difficulty
    { key := keyInc, val := val, time := t, work := ws.1, salt := ws.2,
      sig := sign priv ws.1, pubKey := pub }

/-! ## Batch orchestrator: `set` of src/main.go (lines 177-217)

Worker spawn loop (lines 198-205): `for nroutine := 0; nroutine <
runtime.NumCPU(); nroutine++ { go ... }` — one goroutine per CPU.
Per-iteration body (lines 206-214): construct `godave.Dat{V: val, Ti:
time.Now()}` (no clock-skew margin), send the challenge, receive the
solution, then block on the `d.Set` acknowledgment channel. -/

/-- Worker goroutine ids spawned by `set` in src/main.go: the loop bound
is `runtime.NumCPU()`. -/
def mainGoSetWorkers (numCPU : Nat) : List Nat := List.range numCPU

/-- Worker goroutine ids spawned by `set` in src/unnamed/part_001
(lines 204-212): `ncpu := max(runtime.NumCPU()-1, 1)`. -/
def part001SetWorkers (numCPU : Nat) : List Nat := List.range (max (numCPU - 1) 1)

/-- Record of `godave.Dat` as assembled by one iteration of `set` in
src/main.go lines 207-211: value, timestamp `time.Now()` unchanged, and
the solution fields filled in from the worker result. -/
structure GDat where
  v : List Nat
  ti : Int
  w : List Nat
  s : List Nat
deriving DecidableEq, Repr

/-- One iteration of `set` in src/main.go: `dat := &godave.Dat{V: val,
Ti: time.Now()}`, then `dat.W, dat.S` from the worker solution.
`work` models `godave.Work` applied to `(dat.V, Ttb(dat.Ti))`. -/
def mainGoSetIter (work : List Nat → Int → List Nat × List Nat)
    (val : List Nat) (now : Int) : GDat :=
  let ws := work val now
  { v := val, ti := now, w := ws.1, s := ws.2 }

/-! ## Orchestrator event traces

Per-iteration event traces of the orchestrator goroutine, read directly
off the loop bodies. `mainGoSetTrace` is `set` of src/main.go lines
206-214: construct the record, send the challenge, receive the
solution, block on the `d.Set` acknowledgment channel, print.
`part000PutTrace` is the loop of `put` in src/unnamed/part_000 lines
211-226: construct the record, compute the proof inline, sign it, call
the synchronous `d.Put` (whose return is the submission
acknowledgment), print. `part002PutTrace` is the main loop of `put` in
src/unnamed/part_002 lines 230-247: construct the record, enqueue it on
the buffered `work` channel for the concurrent signing/PoW/submission
workers, print; the orchestrator goroutine never waits for a submission
acknowledgment. -/

inductive Ev where
  | construct (i : Nat)
  | sendChal (i : Nat)
  | recvSol (i : Nat)
  | computeWork (i : Nat)
  | signRec (i : Nat)
  | awaitAck (i : Nat)
  | printDone (i : Nat)
  | enqueue (i : Nat)
deriving DecidableEq, Repr

def mainGoSetTrace : Nat → List Ev
  | 0 => []
  | n + 1 => mainGoSetTrace n ++
      [.construct n, .sendChal n, .recvSol n, .awaitAck n, .printDone n]

def part000PutTrace : Nat → List Ev
  | 0 => []
  | n + 1 => part000PutTrace n ++
      [.construct n, .computeWork n, .signRec n, .awaitAck n, .printDone n]

def part002PutTrace : Nat → List Ev
  | 0 => []
  | n + 1 => part002PutTrace n ++ [.construct n, .enqueue n, .printDone n]

/-- The sequencing property of spec section 5: whenever a prefix of the
orchestrator trace contains the construction of iteration `i+1`'s
challenge, it already contains the receipt of iteration `i`'s
submission acknowledgment. -/
def ackGated (tr : List Ev) : Prop :=
  ∀ i j, Ev.construct (i + 1) ∈ tr.take j → Ev.awaitAck i ∈ tr.take j

/-! ## Sign-then-work pipeline: worker of `put` in src/unnamed/part_002

Worker body (lines 219-228):
```
for w := range work {
    (&w).Sign(privKey)
    w.Work, w.Salt = dat.DoWork(w.Sig, opt.Difficulty)
    datCh <- w
}
```
The record is signed first (godave's `Sign` method, over the record as
it stands, which has no work yet), and the proof-of-work is then
computed over the signature. `signRecord` models the `Sign` method,
`doWork` models `dat.DoWork`. -/

def part002Complete (signRecord : List Nat → Dat → List Nat)
    (doWork : List Nat → Nat → List Nat × List Nat)
    (priv : List Nat) (difficulty : Nat) (w : Dat) : Dat :=
  let signed : Dat := { w with sig := signRecord priv w }
  let ws := doWork signed.sig difficulty
  { signed with work := ws.1, salt := ws.2 }

/-! ## CLI dispatch and exit codes

`MainGoStep` enumerates the terminal outcomes of `main` in src/main.go
(flag parsing through command dispatch, lines 41-117); `DavedStep` the
outcomes of `main` in src/unnamed/part_000 (lines 35-132). Each
constructor is one control-flow exit of the source; `...ExitCode` maps
it to the process exit code the source produces there (`exit(code,...)`
calls `os.Exit(code)`; falling off `main` exits 0). -/

inductive MainGoStep where
  | resolveErr      -- net.ResolveUDPAddr fails: exit(1, ...)
  | parseEdgeErr    -- parseAddrPortMaybeHostname fails: exit(1, ...)
  | newDaveErr      -- godave.NewDave fails: exit(1, ...)
  | version         -- prints commit, falls through
  | setMissingArg   -- flag.NArg() < 2: exit(1, ...)
  | setDone         -- set returns, then return
  | setfMissingArg  -- flag.NArg() < 2: exit(1, ...)
  | setfReadErr     -- os.ReadFile fails: exit(2, ...)
  | setfDone        -- set returns, falls through
  | getMissingArg   -- flag.NArg() < 2: exit(1, ...)
  | getBadHex       -- hex.DecodeString fails: exit(1, ...)
  | getNotFound     -- no dat received: exit(1, "dat not found")
  | getFound        -- dat printed, falls through
deriving DecidableEq, Repr, Fintype

def mainGoExitCode : MainGoStep → Nat
  | .resolveErr => 1
  | .parseEdgeErr => 1
  | .newDaveErr => 1
  | .version => 0
  | .setMissingArg => 1
  | .setDone => 0
  | .setfMissingArg => 1
  | .setfReadErr => 2
  | .setfDone => 0
  | .getMissingArg => 1
  | .getBadHex => 1
  | .getNotFound => 1
  | .getFound => 0

/-- Outcomes of src/main.go `main` that are usage or operational errors
(missing argument, invalid input, failure) or file I/O errors. -/
def mainGoIsError : MainGoStep → Bool
  | .resolveErr => true
  | .parseEdgeErr => true
  | .newDaveErr => true
  | .version => false
  | .setMissingArg => true
  | .setDone => false
  | .setfMissingArg => true
  | .setfReadErr => true
  | .setfDone => false
  | .getMissingArg => true
  | .getBadHex => true
  | .getNotFound => true
  | .getFound => false

inductive DavedStep where
  | cfgReadErr               -- cfg.ReadNodeCfgFile fails: exit(1, ...)
  | cfgParseErr              -- cfg.ParseNodeCfg fails: exit(1, ...)
  | version                  -- prints commit, falls through
  | keygenGenErr             -- ed25519.GenerateKey fails: exit(1, ...)
  | keygenDone (writeOk : Bool) -- os.WriteFile result discarded, falls through
  | putInitErr               -- initNode fails: exit(1, ...)
  | putKeyReadErr            -- cfg.ReadKeyFile fails: fmt.Printf then return
  | putMissingArgs           -- flag.NArg() < 3: exit(1, ...)
  | putSubmitErr             -- d.Put returns error inside put: exit(1, ...)
  | putDone                  -- put returns, falls through
  | getMissingArg            -- flag.NArg() < 2: exit(1, ...)
  | getInitErr               -- initNode fails: exit(1, ...)
  | getKeyReadErr            -- cfg.ReadKeyFile fails: fmt.Printf then return
  | getErr                   -- d.Get returns error: exit(1, ...)
  | getDone                  -- dat printed, falls through
deriving DecidableEq, Repr, Fintype

def davedExitCode : DavedStep → Nat
  | .cfgReadErr => 1
  | .cfgParseErr => 1
  | .version => 0
  | .keygenGenErr => 1
  | .keygenDone _ => 0
  | .putInitErr => 1
  | .putKeyReadErr => 0
  | .putMissingArgs => 1
  | .putSubmitErr => 1
  | .putDone => 0
  | .getMissingArg => 1
  | .getInitErr => 1
  | .getKeyReadErr => 0
  | .getErr => 1
  | .getDone => 0

/-- Outcomes of src/unnamed/part_000 `main` that are errors: every
constructor carrying a failed operation, including the discarded
key-file write failure of keygen. -/
def davedIsError : DavedStep → Bool
  | .cfgReadErr => true
  | .cfgParseErr => true
  | .version => false
  | .keygenGenErr => true
  | .keygenDone writeOk => !writeOk
  | .putInitErr => true
  | .putKeyReadErr => true
  | .putMissingArgs => true
  | .putSubmitErr => true
  | .putDone => false
  | .getMissingArg => true
  | .getInitErr => true
  | .getKeyReadErr => true
  | .getErr => true
  | .getDone => false

/-! ## keygen (src/unnamed/part_000 lines 56-68)

```
filename := cfg.DEFAULT_KEY_FILENAME
if flag.NArg() < 2 {
    fmt.Printf("no filename provided, using default: %s\n", filename)
} else {
    filename = flag.Arg(1)
}
_, priv, err := ed25519.GenerateKey(nil)
if err != nil { exit(1, ...) }
os.WriteFile(filename, priv, 0600)
```
The `os.WriteFile` error value is discarded and control falls off
`main` (exit code 0). `defaultKeyFilename` is a parameter standing for
the constant `cfg.DEFAULT_KEY_FILENAME` (the cfg package in
src/unnamed/part_009 sets it to `"key.dave"`), so the results hold for
that value in particular; `genOk`/`writeOk` model the success of key
generation and of the file write. -/

structure KeygenOutcome where
  exitCode : Nat
  filename : Option (List Char)  -- the filename written to, if the write was attempted
  defaultNotePrinted : Bool
deriving DecidableEq, Repr

set_option linter.unusedVariables false in
def keygen (defaultKeyFilename : List Char) (hasArg : Bool) (argFilename : List Char)
    (genOk : Bool) (writeOk : Bool) : KeygenOutcome :=
  let filename := if hasArg then argFilename else defaultKeyFilename
  if genOk then
    { exitCode := 0, filename := some filename, defaultNotePrinted := !hasArg }
  else
    { exitCode := 1, filename := none, defaultNotePrinted := !hasArg }

/-! ## Base64 RawURL encoding (Go `encoding/base64` `RawURLEncoding`)

The URL-safe alphabet (`-` and `_` in positions 62 and 63), unpadded.
Bytes are `Nat` values below 256; 6-bit groups are packed most
significant first, exactly as Go's encoder does. -/

def b64Alphabet : List Char :=
  ['A', 'B', 'C', 'D', 'E', 'F', 'G', 'H', 'I', 'J', 'K', 'L', 'M',
   'N', 'O', 'P', 'Q', 'R', 'S', 'T', 'U', 'V', 'W', 'X', 'Y', 'Z',
   'a', 'b', 'c', 'd', 'e', 'f', 'g', 'h', 'i', 'j', 'k', 'l', 'm',
   'n', 'o', 'p', 'q', 'r', 's', 't', 'u', 'v', 'w', 'x', 'y', 'z',
   '0', '1', '2', '3', '4', '5', '6', '7', '8', '9', '-', '_']

def b64Char (n : Nat) : Char := b64Alphabet.getD n 'A'

def b64DecodeChar (c : Char) : Option Nat := b64Alphabet.indexOf? c

/-- Unpadded URL-safe base64 encoding of a byte string. -/
def b64Encode : List Nat → List Char
  | [] => []
  | [b1] => [b64Char (b1 / 4), b64Char (b1 % 4 * 16)]
  | [b1, b2] => [b64Char (b1 / 4), b64Char (b1 % 4 * 16 + b2 / 16),
                 b64Char (b2 % 16 * 4)]
  | b1 :: b2 :: b3 :: rest =>
    b64Char (b1 / 4) :: b64Char (b1 % 4 * 16 + b2 / 16) ::
    b64Char (b2 % 16 * 4 + b3 / 64) :: b64Char (b3 % 64) :: b64Encode rest

/-- Unpadded URL-safe base64 decoding; `none` on any character outside
the alphabet or on a trailing group of one character, as Go's
`RawURLEncoding.DecodeString` rejects those. -/
def b64Decode : List Char → Option (List Nat)
  | [] => some []
  | [_] => none
  | [c1, c2] => do
    let n1 ← b64DecodeChar c1
    let n2 ← b64DecodeChar c2
    some [n1 * 4 + n2 / 16]
  | [c1, c2, c3] => do
    let n1 ← b64DecodeChar c1
    let n2 ← b64DecodeChar c2
    let n3 ← b64DecodeChar c3
    some [n1 * 4 + n2 / 16, n2 % 16 * 16 + n3 / 4]
  | c1 :: c2 :: c3 :: c4 :: rest => do
    let n1 ← b64DecodeChar c1
    let n2 ← b64DecodeChar c2
    let n3 ← b64DecodeChar c3
    let n4 ← b64DecodeChar c4
    let tail ← b64Decode rest
    some ((n1 * 4 + n2 / 16) :: (n2 % 16 * 16 + n3 / 4) :: (n3 % 4 * 64 + n4) :: tail)

/-! ## HTTP gateway handlers (src/api/http.go)

The JSON layer is modelled by its outcome: a handler receives
`some req` when the body decoded into the request struct and `none`
when `json.Decoder.Decode` failed. Go string fields are `List Char`;
`strBytes` models the `[]byte(s)` conversion (byte values of the
string's characters). `doWork` models `pow.DoWork` of the external
godave library; `putErr` models the error result of `dave.Put`. -/

def strBytes (s : List Char) : List Nat := s.map Char.toNat

/-- Request body of `POST /work` (`datWorkReq` in src/api/http.go). -/
structure DatWorkReq where
  key : List Char
  val : List Char
  time : Int
  difficulty : Nat
deriving DecidableEq, Repr

/-- Response body of `POST /work` (`datWorkResp`): base64 text fields. -/
structure DatWorkResp where
  salt : List Char
  work : List Char
deriving DecidableEq, Repr

/-- Observable outcome of `handleDoWork`: HTTP status written, whether
`pow.DoWork` was invoked, the byte string it was invoked on, and the
response body. -/
structure WorkOutcome where
  status : Nat
  workCalled : Bool
  digestInput : Option (List Nat)
  resp : Option DatWorkResp
deriving DecidableEq, Repr

/-- `handleDoWork` (src/api/http.go lines 118-141): on a JSON decode
error, write 400 and return; otherwise call
`pow.DoWork(req.Key, []byte(req.Val), time.UnixMilli(req.Time),
req.Difficulty)` and respond with the salt and work base64
RawURL-encoded. The `val` field is used as raw bytes, never
base64-decoded. -/
def handleDoWork (doWork : List Char → List Nat → Int → Nat → List Nat × List Nat) :
    Option DatWorkReq → WorkOutcome
  | none => { status := 400, workCalled := false, digestInput := none, resp := none }
  | some req =>
    let ws := doWork req.key (strBytes req.val) req.time req.difficulty
    { status := 200, workCalled := true, digestInput := some (strBytes req.val),
      resp := some { salt := b64Encode ws.2, work := b64Encode ws.1 } }

/-- Request body of `POST /put` (`datEntry` in src/api/http.go). -/
structure DatEntryReq where
  key : List Char
  val : List Char
  time : Int
  salt : List Char
  work : List Char
  pubKey : List Char
  sig : List Char
deriving DecidableEq, Repr

/-- Observable outcome of `handlePostPut`: HTTP status written, whether
`dave.Put` was invoked, and the record forwarded to it. -/
structure PutOutcome where
  status : Nat
  putCalled : Bool
  record : Option Dat
deriving DecidableEq, Repr

/-- `handlePostPut` (src/api/http.go lines 143-194): reject non-POST
and JSON decode errors with 400; base64-decode the salt, work, public
key and signature fields, rejecting each failure with 400 before
`dave.Put` is reached; forward the assembled record to `dave.Put`,
writing 500 on its error and nothing (status 200) on success. -/
def handlePostPut (putErr : Bool) (isPost : Bool) :
    Option DatEntryReq → PutOutcome
  | body =>
    if !isPost then { status := 400, putCalled := false, record := none }
    else match body with
    | none => { status := 400, putCalled := false, record := none }
    | some req =>
      match b64Decode req.salt with
      | none => { status := 400, putCalled := false, record := none }
      | some salt =>
        match b64Decode req.work with
        | none => { status := 400, putCalled := false, record := none }
        | some work =>
          match b64Decode req.pubKey with
          | none => { status := 400, putCalled := false, record := none }
          | some pubKey =>
            match b64Decode req.sig with
            | none => { status := 400, putCalled := false, record := none }
            | some sig =>
              { status := if putErr then 500 else 200, putCalled := true,
                record := some { key := req.key, val := strBytes req.val,
                                 time := req.time, salt := salt, work := work,
                                 pubKey := pubKey, sig := sig } }

/-! # Helper lemmas -/

theorem digitChar_toNat {d : Nat} (h : d < 10) : (digitChar d).toNat = 48 + d := by
  interval_cases d <;> rfl

theorem decVal_decReprAux : ∀ fuel n, n < fuel → decVal (decReprAux fuel n) = n := by
  intro fuel
  induction fuel with
  | zero => intro n h; omega
  | succ fuel ih =>
    intro n h
    rw [decReprAux]
    by_cases h10 : n < 10
    · simp only [if_pos h10, decVal, List.foldl_cons, List.foldl_nil]
      rw [digitChar_toNat h10]
      omega
    · rw [if_neg h10]
      have hdiv : n / 10 < fuel := by
        have := Nat.div_lt_self (by omega : 0 < n) (by omega : 1 < 10)
        omega
      have hpre := ih (n / 10) hdiv
      simp only [decVal, List.foldl_append, List.foldl_cons, List.foldl_nil] at hpre ⊢
      rw [hpre, digitChar_toNat (Nat.mod_lt n (by omega))]
      omega

theorem decVal_decRepr (n : Nat) : decVal (decRepr n) = n :=
  decVal_decReprAux (n + 1) n (Nat.lt_succ_self n)

theorem decRepr_injective : Function.Injective decRepr := by
  intro a b h
  have := decVal_decRepr a
  rw [h, decVal_decRepr] at this
  omega

/-- Injectivity of the per-iteration key map `i ↦ key` for `i = 0`,
`i ↦ key ++ "_" ++ decRepr i` otherwise. -/
theorem batchKeyFn_injective (key : List Char) :
    Function.Injective fun i => if i = 0 then key else key ++ '_' :: decRepr i := by
  intro a b hab
  simp only at hab
  by_cases ha : a = 0 <;> by_cases hb : b = 0
  · omega
  · rw [if_pos ha, if_neg hb] at hab
    have := congrArg List.length hab
    simp [List.length_append] at this
  · rw [if_neg ha, if_pos hb] at hab
    have := congrArg List.length hab
    simp [List.length_append] at this
  · rw [if_neg ha, if_neg hb] at hab
    have h2 := List.append_cancel_left hab
    exact decRepr_injective (List.cons_injective h2)

/-- The submitted keys of a `part000Put` batch, read off the embedding. -/
theorem part000Put_map_key (solve : List Char → List Nat → Int → Nat → List Nat × List Nat)
    (sign : List Nat → List Nat → List Nat) (priv pub : List Nat)
    (key : List Char) (val : List Nat) (now : Nat → Int) (d ntest : Nat) :
    (part000Put solve sign priv pub key val now d ntest).map Dat.key
      = (List.range ntest).map fun i => if i = 0 then key else key ++ '_' :: decRepr i := by
  rw [part000Put, List.map_map]
  rfl

theorem searchFrom_sound (digestF : Nat → List Nat) (d : Nat) :
    ∀ fuel s work salt, searchFrom digestF d fuel s = some (work, salt) →
      work = digestF salt ∧ d ≤ leadingZeroBits work := by
  intro fuel
  induction fuel with
  | zero => intro s work salt h; simp [searchFrom] at h
  | succ fuel ih =>
    intro s work salt h
    rw [searchFrom] at h
    by_cases hc : checkWork d (digestF s)
    · rw [if_pos hc] at h
      have hw : work = digestF s ∧ salt = s := by
        constructor <;> { injection h with h1; cases h1; rfl }
      rcases hw with ⟨hw1, hw2⟩
      subst hw2
      refine ⟨hw1, ?_⟩
      rw [hw1]
      exact of_decide_eq_true hc
    · rw [if_neg hc] at h
      exact ih (s + 1) work salt h

/-! # Claim theorems -/

/-- Claim C1: for every input byte content, timestamp and difficulty
`d ≥ 0`, whenever the Work Function search returns a pair
`(work, salt)`, `work` equals the deterministic digest of
`(input, t, salt)` and that digest has at least `d` leading zero bits;
recomputing the digest from the returned salt reproduces `work`. -/
theorem search_sound (digest : List Nat → Int → Nat → List Nat) (input : List Nat)
    (t : Int) (d fuel : Nat) (work : List Nat) (salt : Nat)
    (h : search digest input t d fuel = some (work, salt)) :
    work = digest input t salt ∧ d ≤ leadingZeroBits work :=
  searchFrom_sound (digest input t) d fuel 0 work salt h

theorem search_sound_witness :
    ([0] : List Nat) = (fun _ _ _ => ([0] : List Nat)) ([] : List Nat) (0 : Int) 0 ∧
      8 ≤ leadingZeroBits [0] :=
  search_sound (fun _ _ _ => [0]) [] 0 8 1 [0] 0 (by decide)

/-- Claim C2: for every batch run of `n ≥ 1` iterations with base key
`K`, the keys of the submitted records are exactly the sequence
`K, K_1, K_2, …, K_{n-1}` in that order, and these `n` keys are
pairwise distinct. -/
theorem part000Put_keys (solve : List Char → List Nat → Int → Nat → List Nat × List Nat)
    (sign : List Nat → List Nat → List Nat) (priv pub : List Nat)
    (key : List Char) (val : List Nat) (now : Nat → Int) (d ntest : Nat)
    (h : 1 ≤ ntest) :
    (part000Put solve sign priv pub key val now d ntest).map Dat.key
        = key :: ((List.range (ntest - 1)).map fun j => key ++ '_' :: decRepr (j + 1)) ∧
      ((part000Put solve sign priv pub key val now d ntest).map Dat.key).Nodup := by
  rw [part000Put_map_key]
  constructor
  · rcases ntest with _ | m
    · omega
    · rw [List.range_succ_eq_map, List.map_cons, List.map_map]
      simp only [Nat.add_sub_cancel, if_pos rfl]
      refine congrArg₂ _ rfl ?_
      apply List.map_congr_left
      intro j _
      simp [Function.comp, Nat.succ_ne_zero]
  · exact (List.nodup_range ntest).map (batchKeyFn_injective key)

theorem part000Put_keys_witness :
    ((part000Put (fun _ _ _ _ => ([], [])) (fun _ _ => []) [] [] ['k'] []
          (fun _ => 0) 0 3).map Dat.key
        = ['k'] :: ((List.range 2).map fun j => ['k'] ++ '_' :: decRepr (j + 1)) ∧
      ((part000Put (fun _ _ _ _ => ([], [])) (fun _ _ => []) [] [] ['k'] []
          (fun _ => 0) 0 3).map Dat.key).Nodup) :=
  part000Put_keys (fun _ _ _ _ => ([], [])) (fun _ _ => []) [] [] ['k'] []
    (fun _ => 0) 0 3 (by decide)

theorem awaitAck_mem_mainGoSetTrace : ∀ n i, i < n → Ev.awaitAck i ∈ mainGoSetTrace n := by
  intro n
  induction n with
  | zero => intro i h; omega
  | succ n ih =>
    intro i h
    rw [mainGoSetTrace]
    rcases Nat.lt_or_ge i n with h2 | h2
    · exact List.mem_append_left _ (ih i h2)
    · have : i = n := by omega
      subst this
      exact List.mem_append_right _ (by simp)

theorem ackGated_mainGoSetTrace : ∀ n, ackGated (mainGoSetTrace n) := by
  intro n
  induction n with
  | zero => intro i j h; simp [mainGoSetTrace] at h
  | succ n ih =>
    intro i j h
    rw [mainGoSetTrace, List.take_append_eq_append_take] at h ⊢
    rcases List.mem_append.mp h with h1 | h1
    · exact List.mem_append_left _ (ih i j h1)
    · set m := j - (mainGoSetTrace n).length with hm
      have hsub : Ev.construct (i + 1) ∈
          ([Ev.construct n, Ev.sendChal n, Ev.recvSol n, Ev.awaitAck n,
            Ev.printDone n] : List Ev) :=
        List.take_subset m _ h1
      have hin : i + 1 = n := by simpa using hsub
      have hmpos : 1 ≤ m := by
        by_contra hc
        have : m = 0 := by omega
        rw [this] at h1
        simp at h1
      have hlen : (mainGoSetTrace n).length ≤ j := by omega
      rw [List.take_of_length_le hlen]
      exact List.mem_append_left _
        (awaitAck_mem_mainGoSetTrace n i (by omega))

theorem awaitAck_mem_part000PutTrace : ∀ n i, i < n →
    Ev.awaitAck i ∈ part000PutTrace n := by
  intro n
  induction n with
  | zero => intro i h; omega
  | succ n ih =>
    intro i h
    rw [part000PutTrace]
    rcases Nat.lt_or_ge i n with h2 | h2
    · exact List.mem_append_left _ (ih i h2)
    · have : i = n := by omega
      subst this
      exact List.mem_append_right _ (by simp)

theorem ackGated_part000PutTrace : ∀ n, ackGated (part000PutTrace n) := by
  intro n
  induction n with
  | zero => intro i j h; simp [part000PutTrace] at h
  | succ n ih =>
    intro i j h
    rw [part000PutTrace, List.take_append_eq_append_take] at h ⊢
    rcases List.mem_append.mp h with h1 | h1
    · exact List.mem_append_left _ (ih i j h1)
    · set m := j - (part000PutTrace n).length with hm
      have hsub : Ev.construct (i + 1) ∈
          ([Ev.construct n, Ev.computeWork n, Ev.signRec n, Ev.awaitAck n,
            Ev.printDone n] : List Ev) :=
        List.take_subset m _ h1
      have hin : i + 1 = n := by simpa using hsub
      have hmpos : 1 ≤ m := by
        by_contra hc
        have : m = 0 := by omega
        rw [this] at h1
        simp at h1
      have hlen : (part000PutTrace n).length ≤ j := by omega
      rw [List.take_of_length_le hlen]
      exact List.mem_append_left _
        (awaitAck_mem_part000PutTrace n i (by omega))

/-- Claim C3 (amended): in the sequential orchestrators — `set` of
src/main.go and `put` of src/unnamed/part_000 — every prefix of the
orchestrator trace that contains the construction of iteration `i+1`'s
challenge already contains the receipt of iteration `i`'s submission
acknowledgment (the blocking receive on the `d.Set` channel in
main.go, the synchronous `d.Put` return in part_000); the batch-writer
orchestrator of src/unnamed/part_002 does not have this property (see
the counterexample). -/
theorem seqOrchestrators_ackGated (n m : Nat) :
    ackGated (mainGoSetTrace n) ∧ ackGated (part000PutTrace m) :=
  ⟨ackGated_mainGoSetTrace n, ackGated_part000PutTrace m⟩

/-- Claim C3 counterexample: in the batch-writer `put` of
src/unnamed/part_002 with `ntest = 2`, the orchestrator constructs
iteration 1's record without ever having received iteration 0's
submission acknowledgment: the sequencing property fails on its
trace. -/
theorem part002Put_not_ackGated : ¬ ackGated (part002PutTrace 2) := by
  intro h
  have h1 : Ev.construct 1 ∈ (part002PutTrace 2).take 6 := by decide
  have h2 := h 0 6 h1
  revert h2
  decide

theorem seqOrchestrators_ackGated_witness :
    Ev.awaitAck 0 ∈ (mainGoSetTrace 2).take 6 ∧
      Ev.awaitAck 0 ∈ (part000PutTrace 2).take 6 :=
  ⟨(seqOrchestrators_ackGated 2 2).1 0 6 (by decide),
   (seqOrchestrators_ackGated 2 2).2 0 6 (by decide)⟩

/-- Claim C4 counterexample: with 4 available cores, the queued-mode
`set` of src/main.go spawns one worker per core (loop bound
`runtime.NumCPU()`), i.e. 4 workers, not `max(4-1, 1) = 3`. -/
theorem mainGoSetWorkers_ne_policy :
    (mainGoSetWorkers 4).length ≠ max (4 - 1) 1 := by decide

/-- Claim C4 (amended): in queued dispatch mode the `set` of
src/unnamed/part_001 spawns `max(availableCores - 1, 1)` workers
(always at least one, `availableCores - 1` when two or more cores are
available), while the `set` of src/main.go spawns `availableCores`
workers, for every `availableCores ≥ 1`. -/
theorem workerCount_policy (numCPU : Nat) (hcpu : 1 ≤ numCPU) :
    (part001SetWorkers numCPU).length = max (numCPU - 1) 1 ∧
      1 ≤ (part001SetWorkers numCPU).length ∧
      (2 ≤ numCPU → (part001SetWorkers numCPU).length = numCPU - 1) ∧
      (mainGoSetWorkers numCPU).length = numCPU := by
  have hone : 0 < numCPU := hcpu
  refine ⟨by simp [part001SetWorkers], ?_, ?_, by simp [mainGoSetWorkers]⟩
  · simp only [part001SetWorkers, List.length_range]
    exact Nat.le_max_right _ _
  · intro h2
    simp only [part001SetWorkers, List.length_range]
    exact Nat.max_eq_left (by omega)

theorem workerCount_policy_witness :
    (part001SetWorkers 4).length = max (4 - 1) 1 ∧
      1 ≤ (part001SetWorkers 4).length ∧
      (2 ≤ 4 → (part001SetWorkers 4).length = 4 - 1) ∧
      (mainGoSetWorkers 4).length = 4 :=
  workerCount_policy 4 (by decide)

/-- Claim C5 counterexample: an iteration of `set` in src/main.go
timestamps its record with `time.Now()` unchanged (`godave.Dat{V: val,
Ti: time.Now()}`): at call-time 1000 the record's timestamp is 1000,
neither strictly earlier than `now` nor within the 90-110 ms
clock-skew window. -/
theorem mainGoSetIter_no_margin :
    ¬ ((mainGoSetIter (fun _ _ => ([], [])) [] 1000).ti < 1000 ∧
        90 ≤ 1000 - (mainGoSetIter (fun _ _ => ([], [])) [] 1000).ti) := by decide

/-- Claim C5 (amended): every record of a `part000Put` batch is
timestamped exactly 100 ms before that iteration's call-time `now`
(hence within the 90-110 ms window for the 100 ms margin and strictly
earlier than `now`), while `set` of src/main.go timestamps records
with `now` unchanged, applying no margin. -/
theorem part000Put_timestamp
    (solve : List Char → List Nat → Int → Nat → List Nat × List Nat)
    (sign : List Nat → List Nat → List Nat) (priv pub : List Nat)
    (key : List Char) (val : List Nat) (now : Nat → Int) (d ntest : Nat)
    (i : Nat) (r : Dat)
    (h : (part000Put solve sign priv pub key val now d ntest)[i]? = some r) :
    (r.time = now i - 100 ∧ now i - 110 ≤ r.time ∧ r.time ≤ now i - 90 ∧
      r.time < now i) ∧
    ∀ (work : List Nat → Int → List Nat × List Nat) (v : List Nat) (t : Int),
      (mainGoSetIter work v t).ti = t := by
  refine ⟨?_, fun work v t => rfl⟩
  rcases Nat.lt_or_ge i ntest with hi | hi
  · rw [part000Put, List.getElem?_map, List.getElem?_range hi] at h
    simp only [Option.map_some'] at h
    have hr := Option.some.inj h
    have ht : r.time = now i - 100 := by rw [← hr]
    refine ⟨ht, by omega, by omega, by omega⟩
  · exfalso
    have hnone : (part000Put solve sign priv pub key val now d ntest)[i]? = none := by
      apply List.getElem?_eq_none
      simp only [part000Put, List.length_map, List.length_range]
      omega
    rw [hnone] at h
    exact Option.noConfusion h

theorem part000Put_timestamp_witness :
    (((⟨['k'], [], 900, [], [], [], []⟩ : Dat).time = (fun _ => (1000 : Int)) 0 - 100 ∧
        (fun _ => (1000 : Int)) 0 - 110 ≤ (⟨['k'], [], 900, [], [], [], []⟩ : Dat).time ∧
        (⟨['k'], [], 900, [], [], [], []⟩ : Dat).time ≤ (fun _ => (1000 : Int)) 0 - 90 ∧
        (⟨['k'], [], 900, [], [], [], []⟩ : Dat).time < (fun _ => (1000 : Int)) 0) ∧
      ∀ (work : List Nat → Int → List Nat × List Nat) (v : List Nat) (t : Int),
        (mainGoSetIter work v t).ti = t) :=
  part000Put_timestamp (fun _ _ _ _ => ([], [])) (fun _ _ => []) [] [] ['k'] []
    (fun _ => 1000) 0 1 0 ⟨['k'], [], 900, [], [], [], []⟩ (by decide)

/-- Claim C6 counterexample: in the pipelined `put` of
src/unnamed/part_002 the record is signed before the proof-of-work is
computed, and the work is then computed over the signature, so the
submitted record's signature does not cover its work value: modelling
ed25519 signing as `p ++ m` (the record `Sign` method signing the
record's value), the completed record's `sig` field differs from a
signature over the completed record's `work`. -/
theorem part002Complete_sig_not_over_work :
    (part002Complete (fun p r => p ++ r.val) (fun s _ => (s ++ [1], [7])) [5] 8
        ⟨['k'], [2], 0, [], [], [], [9]⟩).sig
      ≠ [5] ++ (part002Complete (fun p r => p ++ r.val) (fun s _ => (s ++ [1], [7])) [5] 8
        ⟨['k'], [2], 0, [], [], [], [9]⟩).work := by decide

/-- Claim C6 (amended): in `put` of src/unnamed/part_000 every
submitted record's signature is `Sign(privateKey, work)` where `work`
is the already-computed PoW digest; in the pipelined `put` of
src/unnamed/part_002 the order is reversed: the record is signed
before the PoW is known and the work is computed over the signature
(`Work = DoWork(Sig, difficulty)`). -/
theorem signature_work_binding :
    (∀ (solve : List Char → List Nat → Int → Nat → List Nat × List Nat)
        (sign : List Nat → List Nat → List Nat) (priv pub : List Nat)
        (key : List Char) (val : List Nat) (now : Nat → Int) (d ntest i : Nat) (r : Dat),
        (part000Put solve sign priv pub key val now d ntest)[i]? = some r →
        r.sig = sign priv r.work) ∧
    (∀ (signRecord : List Nat → Dat → List Nat)
        (doWork : List Nat → Nat → List Nat × List Nat) (priv : List Nat)
        (d : Nat) (w : Dat),
        (part002Complete signRecord doWork priv d w).work
            = (doWork (part002Complete signRecord doWork priv d w).sig d).1 ∧
          (part002Complete signRecord doWork priv d w).sig = signRecord priv w) := by
  constructor
  · intro solve sign priv pub key val now d ntest i r h
    rcases Nat.lt_or_ge i ntest with hi | hi
    · rw [part000Put, List.getElem?_map, List.getElem?_range hi] at h
      simp only [Option.map_some'] at h
      have hr := Option.some.inj h
      rw [← hr]
    · exfalso
      have hnone : (part000Put solve sign priv pub key val now d ntest)[i]? = none := by
        apply List.getElem?_eq_none
        simp only [part000Put, List.length_map, List.length_range]
        omega
      rw [hnone] at h
      exact Option.noConfusion h
  · intro signRecord doWork priv d w
    exact ⟨rfl, rfl⟩

theorem signature_work_binding_witness :
    (⟨['k'], [], 900, [3], [], [7, 3], []⟩ : Dat).sig
      = (fun p m => p ++ m) [7] (⟨['k'], [], 900, [3], [], [7, 3], []⟩ : Dat).work :=
  signature_work_binding.1 (fun _ _ _ _ => ([3], [])) (fun p m => p ++ m) [7] [] ['k'] []
    (fun _ => 1000) 0 1 0 ⟨['k'], [], 900, [3], [], [7, 3], []⟩ (by decide)

/-- Claim C7 counterexample: in src/unnamed/part_000 `main`, a failure
to read the data key file during `put` prints the error and returns
from `main`, terminating with exit code 0 even though it is an error
path. -/
theorem davedExitCode_zero_on_error :
    davedIsError DavedStep.putKeyReadErr = true ∧
      ¬ (davedExitCode DavedStep.putKeyReadErr = 1 ∨
          davedExitCode DavedStep.putKeyReadErr = 2) := by decide

/-- Claim C7 (amended): in the `set`/`setf`/`get` CLI of src/main.go
every error path exits with code 1 except the unreadable `setf` input
file, which exits 2; in the `keygen`/`put`/`get` CLI of
src/unnamed/part_000 the error paths exit 1 and never 2, except that a
data key file read failure in `put` or `get` and a discarded keygen
write failure terminate with exit code 0. -/
theorem exitCode_policy : ∀ (s : MainGoStep) (t : DavedStep),
    (mainGoIsError s = true → mainGoExitCode s ≠ 0 ∧
      (mainGoExitCode s = 2 ↔ s = MainGoStep.setfReadErr)) ∧
    (davedIsError t = true →
      (davedExitCode t = 0 ↔ t = DavedStep.putKeyReadErr ∨
        t = DavedStep.getKeyReadErr ∨ t = DavedStep.keygenDone false) ∧
      davedExitCode t ≠ 2) := by decide

theorem exitCode_policy_witness :
    (mainGoExitCode MainGoStep.setfReadErr ≠ 0 ∧
      (mainGoExitCode MainGoStep.setfReadErr = 2 ↔
        MainGoStep.setfReadErr = MainGoStep.setfReadErr)) ∧
    ((davedExitCode DavedStep.putKeyReadErr = 0 ↔
        DavedStep.putKeyReadErr = DavedStep.putKeyReadErr ∨
        DavedStep.putKeyReadErr = DavedStep.getKeyReadErr ∨
        DavedStep.putKeyReadErr = DavedStep.keygenDone false) ∧
      davedExitCode DavedStep.putKeyReadErr ≠ 2) :=
  ⟨(exitCode_policy MainGoStep.setfReadErr DavedStep.putKeyReadErr).1 (by decide),
   (exitCode_policy MainGoStep.setfReadErr DavedStep.putKeyReadErr).2 (by decide)⟩

/-- Claim C8: for every request to `/work` or `/put` whose body is
malformed JSON or contains a field that is not valid base64, the
handler responds 400 and returns without invoking the Work Function or
forwarding to the storage engine. -/
theorem badRequest_rejected (putErr : Bool)
    (doWork : List Char → List Nat → Int → Nat → List Nat × List Nat) :
    ((handleDoWork doWork none).status = 400 ∧
      (handleDoWork doWork none).workCalled = false) ∧
    ((handlePostPut putErr true none).status = 400 ∧
      (handlePostPut putErr true none).putCalled = false) ∧
    ∀ req : DatEntryReq,
      (b64Decode req.salt = none ∨ b64Decode req.work = none ∨
        b64Decode req.pubKey = none ∨ b64Decode req.sig = none) →
      (handlePostPut putErr true (some req)).status = 400 ∧
      (handlePostPut putErr true (some req)).putCalled = false := by
  refine ⟨⟨rfl, rfl⟩, ⟨by simp [handlePostPut], by simp [handlePostPut]⟩, ?_⟩
  intro req h
  rw [handlePostPut]
  cases hs : b64Decode req.salt with
  | none => simp
  | some salt =>
    cases hw : b64Decode req.work with
    | none => simp
    | some work =>
      cases hp : b64Decode req.pubKey with
      | none => simp
      | some pubKey =>
        cases hg : b64Decode req.sig with
        | none => simp
        | some sig => simp [hs, hw, hp, hg] at h

theorem badRequest_rejected_witness :
    (handlePostPut false true (some ⟨[], [], 0, ['!'], [], [], []⟩)).status = 400 ∧
      (handlePostPut false true (some ⟨[], [], 0, ['!'], [], [], []⟩)).putCalled = false :=
  (badRequest_rejected false (fun _ _ _ _ => ([], []))).2.2
    ⟨[], [], 0, ['!'], [], [], []⟩ (Or.inl (by decide))

/-- Unpadded base64 strictly expands every nonempty byte string. -/
theorem b64Encode_length_lt : ∀ l : List Nat, l ≠ [] → l.length < (b64Encode l).length := by
  intro l
  induction l using b64Encode.induct with
  | case1 => intro h; exact absurd rfl h
  | case2 b1 => intro _; simp [b64Encode]
  | case3 b1 b2 => intro _; simp [b64Encode]
  | case4 b1 b2 b3 rest ih =>
    intro _
    rcases List.eq_nil_or_concat rest with hrest | _
    · subst hrest; simp [b64Encode]
    · have hne : rest ≠ [] := by
        rintro rfl
        simp_all
      have := ih hne
      simp only [b64Encode, List.length_cons]
      omega

/-- Claim C9: for every well-formed `POST /work` request the
proof-of-work is computed over the raw bytes of the JSON `val` string
as-is — the value is never base64-decoded — while the salt and work in
the response are base64 RawURL-encoded; so a client that base64-encodes
a nonempty value receives work over the encoded text, not over the
original bytes. -/
theorem handleDoWork_raw_val
    (doWork : List Char → List Nat → Int → Nat → List Nat × List Nat)
    (req : DatWorkReq) (orig : List Nat)
    (hval : req.val = b64Encode orig) (hne : orig ≠ []) :
    (handleDoWork doWork (some req)).digestInput = some (strBytes req.val) ∧
    (handleDoWork doWork (some req)).resp =
      some { salt := b64Encode (doWork req.key (strBytes req.val) req.time req.difficulty).2,
             work := b64Encode (doWork req.key (strBytes req.val) req.time req.difficulty).1 } ∧
    strBytes req.val ≠ orig := by
  refine ⟨rfl, rfl, ?_⟩
  intro hcontra
  have hlen := congrArg List.length hcontra
  rw [hval] at hlen
  simp only [strBytes, List.length_map] at hlen
  have := b64Encode_length_lt orig hne
  omega

theorem handleDoWork_raw_val_witness :
    (handleDoWork (fun _ _ _ _ => ([], []))
        (some ⟨[], ['a', 'G', 'k'], 0, 2⟩)).digestInput
      = some (strBytes ['a', 'G', 'k']) ∧
    (handleDoWork (fun _ _ _ _ => ([], []))
        (some ⟨[], ['a', 'G', 'k'], 0, 2⟩)).resp =
      some { salt := b64Encode ((fun _ _ _ _ => (([] : List Nat), ([] : List Nat)))
                ([] : List Char) (strBytes ['a', 'G', 'k']) (0 : Int) 2).2,
             work := b64Encode ((fun _ _ _ _ => (([] : List Nat), ([] : List Nat)))
                ([] : List Char) (strBytes ['a', 'G', 'k']) (0 : Int) 2).1 } ∧
    strBytes ['a', 'G', 'k'] ≠ [104, 105] :=
  handleDoWork_raw_val (fun _ _ _ _ => ([], [])) ⟨[], ['a', 'G', 'k'], 0, 2⟩
    [104, 105] (by decide) (by decide)

/-- Claim C10: for every keygen invocation, the error result of writing
the private-key file is discarded — the outcome (exit code 0) is the
same whether the write succeeds or fails — and when no filename
argument is given the key is written to the default filename. -/
theorem keygen_discards_write_error (defaultName arg : List Char) (hasArg : Bool) :
    keygen defaultName hasArg arg true false = keygen defaultName hasArg arg true true ∧
    (keygen defaultName hasArg arg true false).exitCode = 0 ∧
    (keygen defaultName false arg true false).filename = some defaultName := by
  refine ⟨rfl, ?_, rfl⟩
  simp [keygen]

end Daved
